import Mathlib

set_option maxRecDepth 100000

/-!
Verification development for the transaction module of a Bitcoin
transaction-construction library (`bitcoinutils/transactions.py`).

The module is shallowly embedded here:

* Byte strings (`bytes` values, and hex strings via the bytes they decode
  to) are `List Nat`.
* Fallible Python operations (`struct.pack` range errors, list indexing,
  `int.to_bytes` overflow, `bytes([...])` range errors, `chr` encoding)
  are modelled in the `Except PyErr` monad, mirroring the exception each
  site would raise.
* SHA-256 (`hashlib.sha256(...).digest()`) is an external primitive and is
  passed in as an explicit function argument `sha : List Nat → List Nat`;
  every digest definition is parametric in it.
* `Script` objects are opaque byte producers for this module; a `Script`
  is represented by the byte string its `to_bytes()` returns.
-/

/-- Kinds of Python exception raised by the embedded code paths. -/
inductive PyErr where
  /-- `IndexError`: list index out of range. -/
  | indexError
  /-- `ValueError`: e.g. `bytes([n])` with `n > 255`, or the explicit
  `raise ValueError` in the legacy SIGHASH_SINGLE path. -/
  | valueError
  /-- `OverflowError`: `int.to_bytes` on a value that does not fit. -/
  | overflowError
  /-- `struct.error`: `struct.pack` argument out of range. -/
  | structError
  /-- Truncated buffer during compact-size decoding (`MalformedVarInt`). -/
  | malformedVarInt
  /-- The plain `raise Exception` in `TxInput.from_raw`. -/
  | exception
  deriving DecidableEq

instance {ε α : Type} [DecidableEq ε] [DecidableEq α] : DecidableEq (Except ε α) := fun a b =>
  match a, b with
  | .ok x, .ok y =>
    if h : x = y then .isTrue (by rw [h]) else .isFalse (fun hc => h (Except.ok.inj hc))
  | .error x, .error y =>
    if h : x = y then .isTrue (by rw [h]) else .isFalse (fun hc => h (Except.error.inj hc))
  | .ok _, .error _ => .isFalse (fun hc => Except.noConfusion hc)
  | .error _, .ok _ => .isFalse (fun hc => Except.noConfusion hc)

/-- Little-endian byte encoding of `n` on `w` bytes (truncating above
`2 ^ (8 * w)`); the callers below guard the range themselves, mirroring
the exception the corresponding Python call would raise. -/
def natLE : Nat → Nat → List Nat
  | 0, _ => []
  | w + 1, n => n % 256 :: natLE w (n / 256)

/-- Big-endian interpretation of a byte string, as in `int(h, 16)` on the
hex rendering of the bytes. -/
def beToNat (l : List Nat) : Nat :=
  l.foldl (fun acc b => acc * 256 + b) 0

/-- Little-endian interpretation of a byte string, as in
`int.from_bytes(l, "little")`. -/
def leToNat (l : List Nat) : Nat :=
  beToNat l.reverse

/-- `struct.pack("<L", n)` / `struct.pack("<I", n)`: 4 bytes unsigned
little-endian; `struct.error` outside `[0, 2^32)`. -/
def pack_u32 (n : Nat) : Except PyErr (List Nat) :=
  if n < 2 ^ 32 then .ok (natLE 4 n) else .error .structError

/-- `struct.pack("<i", n)` on the (always non-negative here) sighash:
4 bytes little-endian; `struct.error` at or above `2^31`. -/
def pack_i32 (n : Nat) : Except PyErr (List Nat) :=
  if n < 2 ^ 31 then .ok (natLE 4 n) else .error .structError

/-- `struct.pack("<q", n)`: 8 bytes signed little-endian (two's
complement); `struct.error` outside `[-2^63, 2^63)`. -/
def pack_i64 (n : Int) : Except PyErr (List Nat) :=
  if -(2 ^ 63) ≤ n ∧ n < 2 ^ 63 then .ok (natLE 8 (n % (2 ^ 64 : Int)).toNat)
  else .error .structError

/-- `struct.pack("<Q", n)`: 8 bytes unsigned little-endian; `struct.error`
outside `[0, 2^64)`. -/
def pack_u64 (n : Int) : Except PyErr (List Nat) :=
  if 0 ≤ n ∧ n < 2 ^ 64 then .ok (natLE 8 n.toNat) else .error .structError

/-- `struct.pack("B", n)`: one byte; `struct.error` above 255. -/
def packB (n : Nat) : Except PyErr (List Nat) :=
  if n ≤ 255 then .ok [n] else .error .structError

/-- `bytes([n])`: one byte; `ValueError` above 255. -/
def bytes1 (n : Nat) : Except PyErr (List Nat) :=
  if n ≤ 255 then .ok [n] else .error .valueError

/-- `n.to_bytes(w, "little")` on a non-negative int; `OverflowError` when
the value does not fit in `w` bytes. -/
def int_to_bytes_le (w : Nat) (n : Int) : Except PyErr (List Nat) :=
  if 0 ≤ n ∧ n < (2 : Int) ^ (8 * w) then .ok (natLE w n.toNat)
  else .error .overflowError

/-- `chr(n).encode()`: the UTF-8 encoding of code point `n`; `ValueError`
beyond `0x10FFFF` and `UnicodeEncodeError` on surrogates (both modelled
as `.valueError`).  In particular the result is a single byte `[n]` only
for `n < 128`; for `128 ≤ n ≤ 255` it is two bytes. -/
def chrEncode (n : Nat) : Except PyErr (List Nat) :=
  if n < 0x80 then .ok [n]
  else if n < 0x800 then .ok [0xC0 + n / 64, 0x80 + n % 64]
  else if 0xD800 ≤ n ∧ n ≤ 0xDFFF then .error .valueError
  else if n < 0x10000 then .ok [0xE0 + n / 4096, 0x80 + n / 64 % 64, 0x80 + n % 64]
  else if n ≤ 0x10FFFF then
    .ok [0xF0 + n / 262144, 0x80 + n / 4096 % 64, 0x80 + n / 64 % 64, 0x80 + n % 64]
  else .error .valueError

/-- Modelled from the spec: the compact-size (VarInt) encoder
`encode_varint` of `bitcoinutils.utils`, which is not under `src/`
(spec section 4.1). -/
def encode_varint (n : Nat) : List Nat :=
  if n < 0xFD then [n]
  else if n ≤ 0xFFFF then 0xFD :: natLE 2 n
  else if n ≤ 0xFFFFFFFF then 0xFE :: natLE 4 n
  else 0xFF :: natLE 8 n

/-- Modelled from the spec: the compact-size decoder `vi_to_int` of
`bitcoinutils.utils`, which is not under `src/` (spec section 4.1);
returns `(value, bytes_consumed)` and fails with `MalformedVarInt` on a
buffer too short for the indicated width. -/
def vi_to_int (b : List Nat) : Except PyErr (Nat × Nat) :=
  match b with
  | [] => .error .malformedVarInt
  | b0 :: rest =>
    if b0 < 0xFD then .ok (b0, 1)
    else if b0 = 0xFD then
      if rest.length < 2 then .error .malformedVarInt else .ok (leToNat (rest.take 2), 3)
    else if b0 = 0xFE then
      if rest.length < 4 then .error .malformedVarInt else .ok (leToNat (rest.take 4), 5)
    else
      if rest.length < 8 then .error .malformedVarInt else .ok (leToNat (rest.take 8), 9)

/-- Modelled from the spec: `prepend_varint` of `bitcoinutils.utils`
(not under `src/`): the byte string prefixed by the VarInt of its
length. -/
def prepend_varint (b : List Nat) : List Nat :=
  encode_varint b.length ++ b

/-- Modelled from the spec: `tagged_hash(data, tag)` of
`bitcoinutils.utils` (not under `src/`), per BIP-340 (spec section 4.2):
`SHA256(SHA256(tag) ‖ SHA256(tag) ‖ data)`.  The argument order (data
first) follows the Python call sites. -/
def tagged_hash (sha : List Nat → List Nat) (data tag : List Nat) : List Nat :=
  sha (sha tag ++ sha tag ++ data)

/-- ASCII bytes of the BIP-340 tag `"TapLeaf"`. -/
def tapLeafTag : List Nat := [84, 97, 112, 76, 101, 97, 102]

/-- ASCII bytes of the BIP-340 tag `"TapSighash"`. -/
def tapSighashTag : List Nat := [84, 97, 112, 83, 105, 103, 104, 97, 115, 104]

/-- Modelled from the spec (section 6): constants of
`bitcoinutils.constants`, which is not under `src/`. -/
abbrev DEFAULT_TX_VERSION : List Nat := [2, 0, 0, 0]

/-- Modelled from the spec (section 6): 4 zero bytes. -/
abbrev DEFAULT_TX_LOCKTIME : List Nat := [0, 0, 0, 0]

/-- Modelled from the spec (section 6): `0xFFFFFFFF` little-endian. -/
abbrev DEFAULT_TX_SEQUENCE : List Nat := [255, 255, 255, 255]

/-- Modelled from the spec (section 6): 4 zero bytes. -/
abbrev EMPTY_TX_SEQUENCE : List Nat := [0, 0, 0, 0]

/-- Modelled from the spec (section 6): −1, the SIGHASH_SINGLE
placeholder amount. -/
abbrev NEGATIVE_SATOSHI : Int := -1

/-- Modelled from the spec (section 6). -/
abbrev SIGHASH_ALL : Nat := 1

/-- Modelled from the spec (section 6). -/
abbrev SIGHASH_NONE : Nat := 2

/-- Modelled from the spec (section 6). -/
abbrev SIGHASH_SINGLE : Nat := 3

/-- Modelled from the spec (section 6). -/
abbrev SIGHASH_ANYONECANPAY : Nat := 0x80

/-- Modelled from the spec (section 6). -/
abbrev TAPROOT_SIGHASH_ALL : Nat := 0

/-- Modelled from the spec (section 6). -/
abbrev LEAF_VERSION_TAPSCRIPT : Nat := 0xC0

/-- Modelled from the spec (sections 1 and 6): `Script` is an opaque
byte-sequence producer; a `Script` value is represented by the canonical
byte string its `to_bytes()` yields, so `Script.to_bytes` and
`Script.from_raw` are identities in the model. -/
abbrev Script := List Nat

/-- A transaction input (`TxInput`): `txid` is held as the 32 bytes the
display-orientation hex string decodes to. -/
structure TxInput where
  txid : List Nat
  txout_index : Nat
  script_sig : Script
  sequence : List Nat
  deriving DecidableEq

/-- A transaction output (`TxOutput`). -/
structure TxOutput where
  amount : Int
  script_pubkey : Script
  deriving DecidableEq

/-- A witness stack (`TxWitnessInput`): each stack item is held as the
bytes its hex string decodes to. -/
structure TxWitnessInput where
  stack : List (List Nat)
  deriving DecidableEq

/-- A transaction (`Transaction`); `version` and `locktime` are the raw
4-byte strings. -/
structure Transaction where
  inputs : List TxInput
  outputs : List TxOutput
  has_segwit : Bool
  witnesses : List TxWitnessInput
  locktime : List Nat
  version : List Nat
  deriving DecidableEq

/-- `TxInput.copy`. -/
def TxInput.copy (txin : TxInput) : TxInput :=
  ⟨txin.txid, txin.txout_index, txin.script_sig, txin.sequence⟩

/-- `TxOutput.copy`. -/
def TxOutput.copy (txout : TxOutput) : TxOutput :=
  ⟨txout.amount, txout.script_pubkey⟩

/-- `TxWitnessInput.copy`. -/
def TxWitnessInput.copy (w : TxWitnessInput) : TxWitnessInput :=
  ⟨w.stack⟩

/-- `Transaction.copy`. -/
def Transaction.copy (tx : Transaction) : Transaction :=
  { inputs := tx.inputs.map TxInput.copy
    outputs := tx.outputs.map TxOutput.copy
    has_segwit := tx.has_segwit
    witnesses := tx.witnesses.map TxWitnessInput.copy
    locktime := tx.locktime
    version := tx.version }

/-- `TxInput.to_bytes`: reversed txid, 4-byte little-endian output index,
VarInt-prefixed scriptSig, 4-byte sequence verbatim. -/
def TxInput.to_bytes (txin : TxInput) : Except PyErr (List Nat) := do
  let txout_bytes ← pack_u32 txin.txout_index
  pure (txin.txid.reverse ++ txout_bytes ++
    encode_varint txin.script_sig.length ++ txin.script_sig ++ txin.sequence)

/-- `TxOutput.to_bytes`: 8-byte signed little-endian amount,
VarInt-prefixed scriptPubKey. -/
def TxOutput.to_bytes (txout : TxOutput) : Except PyErr (List Nat) := do
  let amount_bytes ← pack_i64 txout.amount
  pure (amount_bytes ++ encode_varint txout.script_pubkey.length ++ txout.script_pubkey)

/-- `TxWitnessInput.to_bytes`: each stack item VarInt-prefixed,
concatenated. -/
def TxWitnessInput.to_bytes (w : TxWitnessInput) : List Nat :=
  w.stack.foldl (fun acc item => acc ++ prepend_varint item) []

/-- The per-witness bytes emitted by `Transaction.to_bytes` inside the
witness section: `chr(len(stack)).encode()` followed by the witness
items. -/
def witness_block (w : TxWitnessInput) : Except PyErr (List Nat) := do
  let count_bytes ← chrEncode w.stack.length
  pure (count_bytes ++ w.to_bytes)

/-- The witness section of `Transaction.to_bytes`: for each witness, the
stack-item count via `chr(...).encode()` then the items. -/
def witness_section_bytes (ws : List TxWitnessInput) : Except PyErr (List Nat) :=
  ws.foldlM (fun acc w => do
    let b ← witness_block w
    pure (acc ++ b)) []

/-- `Transaction.to_bytes(has_segwit)`: version, optional marker/flag,
VarInt-counted inputs and outputs, optional witness section, locktime. -/
def Transaction.to_bytes (tx : Transaction) (has_segwit : Bool) : Except PyErr (List Nat) := do
  let marker : List Nat := if has_segwit then [0, 1] else []
  let ins ← tx.inputs.foldlM (fun acc txin => do
    let b ← txin.to_bytes
    pure (acc ++ b)) []
  let outs ← tx.outputs.foldlM (fun acc txout => do
    let b ← txout.to_bytes
    pure (acc ++ b)) []
  let wits ← if has_segwit then witness_section_bytes tx.witnesses else pure []
  pure (tx.version ++ marker ++ encode_varint tx.inputs.length ++ ins ++
    encode_varint tx.outputs.length ++ outs ++ wits ++ tx.locktime)

/-- `Transaction.get_txid`: double SHA-256 of the witness-less
serialization, byte-reversed for display (the hex rendering is modelled
by the bytes themselves). -/
def Transaction.get_txid (sha : List Nat → List Nat) (tx : Transaction) :
    Except PyErr (List Nat) := do
  let data ← tx.to_bytes false
  pure ((sha (sha data)).reverse)

/-- `Transaction.get_hash` / `get_wtxid`: double SHA-256 of the
serialization including the segwit marker and witnesses when
`has_segwit` is set. -/
def Transaction.get_hash (sha : List Nat → List Nat) (tx : Transaction) :
    Except PyErr (List Nat) := do
  let data ← tx.to_bytes tx.has_segwit
  pure ((sha (sha data)).reverse)

/-- `TxInput.from_raw(raw, cursor, has_segwit)`: reads 32-byte txid
(reversed), 4-byte output index (re-reversed and parsed big-endian, i.e.
the little-endian value), VarInt-prefixed scriptSig and 4-byte sequence;
returns the input and the advanced cursor. -/
def TxInput.from_raw (raw : List Nat) (cursor : Nat) : Except PyErr (TxInput × Nat) := do
  let inp_hash := ((raw.drop cursor).take 32).reverse
  if inp_hash.length = 0 then throw PyErr.exception
  else
  let output_n := ((raw.drop (cursor + 32)).take 4).reverse
  let cursor := cursor + 36
  let vi ← vi_to_int ((raw.drop cursor).take 9)
  let cursor := cursor + vi.2
  let unlocking_script := (raw.drop cursor).take vi.1
  let cursor := cursor + vi.1
  let sequence_number := (raw.drop cursor).take 4
  let cursor := cursor + 4
  if output_n.length = 0 then throw PyErr.valueError
  else
  pure (⟨inp_hash, beToNat output_n, unlocking_script, sequence_number⟩, cursor)

/-- `TxOutput.from_raw(raw, cursor, has_segwit)`: 8-byte little-endian
amount (read unsigned), then the VarInt-prefixed scriptPubKey. -/
def TxOutput.from_raw (raw : List Nat) (cursor : Nat) : Except PyErr (TxOutput × Nat) := do
  let value := leToNat ((raw.drop cursor).take 8)
  let cursor := cursor + 8
  let vi ← vi_to_int ((raw.drop cursor).take 9)
  let cursor := cursor + vi.2
  let lock_script := (raw.drop cursor).take vi.1
  let cursor := cursor + vi.1
  pure (⟨(value : Int), lock_script⟩, cursor)

/-- The input-reading loop of `Transaction.from_raw` (`n` iterations of
`TxInput.from_raw`, threading the cursor). -/
def read_inputs (raw : List Nat) : Nat → Nat → Except PyErr (List TxInput × Nat)
  | 0, cursor => .ok ([], cursor)
  | n + 1, cursor => do
    let (inp, cursor') ← TxInput.from_raw raw cursor
    let (rest, cursor'') ← read_inputs raw n cursor'
    pure (inp :: rest, cursor'')

/-- The output-reading loop of `Transaction.from_raw`. -/
def read_outputs (raw : List Nat) : Nat → Nat → Except PyErr (List TxOutput × Nat)
  | 0, cursor => .ok ([], cursor)
  | n + 1, cursor => do
    let (out, cursor') ← TxOutput.from_raw raw cursor
    let (rest, cursor'') ← read_outputs raw n cursor'
    pure (out :: rest, cursor'')

/-- The witness-item loop of `Transaction.from_raw`: each item is a
VarInt length then the bytes; a zero length leaves the initial value
`b"\x00"`, i.e. the one-byte item `[0]`. -/
def read_witness_items (raw : List Nat) : Nat → Nat → Except PyErr (List (List Nat) × Nat)
  | 0, cursor => .ok ([], cursor)
  | m + 1, cursor => do
    let vi ← vi_to_int ((raw.drop cursor).take 9)
    let witness := if vi.1 ≠ 0 then (raw.drop (cursor + vi.2)).take vi.1 else [0]
    let cursor := cursor + vi.1 + vi.2
    let (rest, cursor') ← read_witness_items raw m cursor
    pure (witness :: rest, cursor')

/-- The per-input witness loop of `Transaction.from_raw`: a VarInt item
count, then that many items. -/
def read_witnesses (raw : List Nat) : Nat → Nat → Except PyErr (List TxWitnessInput × Nat)
  | 0, cursor => .ok ([], cursor)
  | n + 1, cursor => do
    let vi ← vi_to_int ((raw.drop cursor).take 9)
    let (items, cursor') ← read_witness_items raw vi.1 (cursor + vi.2)
    let (rest, cursor'') ← read_witnesses raw n cursor'
    pure (⟨items⟩ :: rest, cursor'')

/-- `Transaction.from_raw(raw)`.  Note that the parsed version bytes are
bound to a local and never handed to the constructor, and the locktime
bytes are never read at all: the returned transaction carries the
constructor defaults `DEFAULT_TX_VERSION` and `DEFAULT_TX_LOCKTIME`. -/
def Transaction.from_raw (raw : List Nat) : Except PyErr Transaction := do
  let _version := (raw.take 4).reverse
  let (has_segwit, cursor) : Bool × Nat :=
    if (raw.drop 4).take 1 = [0] then ((raw.drop 5).take 1 = [1], 6) else (false, 4)
  let vi ← vi_to_int ((raw.drop cursor).take 9)
  let (inputs, cursor') ← read_inputs raw vi.1 (cursor + vi.2)
  let vo ← vi_to_int ((raw.drop cursor').take 9)
  let (outputs, cursor'') ← read_outputs raw vo.1 (cursor' + vo.2)
  let (witnesses, _) ←
    if has_segwit then read_witnesses raw inputs.length cursor''
    else pure (([] : List TxWitnessInput), cursor'')
  pure { inputs := inputs
         outputs := outputs
         has_segwit := has_segwit
         witnesses := witnesses
         locktime := DEFAULT_TX_LOCKTIME
         version := DEFAULT_TX_VERSION }

/-- The sequence-zeroing loop of the legacy digest, tracking the running
index: every input whose position differs from `txin_index` gets
`EMPTY_TX_SEQUENCE`. -/
def zero_other_sequences_aux (txin_index : Nat) : Nat → List TxInput → List TxInput
  | _, [] => []
  | cur, txin :: rest =>
    (if cur ≠ txin_index then { txin with sequence := EMPTY_TX_SEQUENCE } else txin) ::
      zero_other_sequences_aux txin_index (cur + 1) rest

/-- `for i in range(len(inputs)): if i != txin_index: zero sequence`. -/
def zero_other_sequences (inputs : List TxInput) (txin_index : Nat) : List TxInput :=
  zero_other_sequences_aux txin_index 0 inputs

/-- The transaction committed to by `Transaction.get_transaction_digest`:
the clone of `self` after the scriptSig replacement, the SIGHASH branch
mutations and the ANYONECANPAY input filtering (lines 582-641 of the
source), i.e. the `tmp_tx` that is then serialized and hashed. -/
def legacyTmpTx (t : Transaction) (txin_index : Nat) (script : Script) (sighash : Nat) :
    Except PyErr Transaction := do
  let tmp_tx := Transaction.copy t
  let inputs0 := tmp_tx.inputs.map (fun txin => { txin with script_sig := ([] : Script) })
  match inputs0[txin_index]? with
  | none => throw PyErr.indexError
  | some txin0 =>
    let inputs1 := inputs0.set txin_index { txin0 with script_sig := script }
    let stepped ←
      if sighash &&& 0x1f = SIGHASH_NONE then
        pure { tmp_tx with outputs := ([] : List TxOutput)
                           inputs := zero_other_sequences inputs1 txin_index }
      else if sighash &&& 0x1f = SIGHASH_SINGLE then
        match t.outputs[txin_index]? with
        | none => throw PyErr.valueError
        | some txout =>
          pure { tmp_tx with
                 outputs := (List.range txin_index).map
                     (fun _ => TxOutput.mk NEGATIVE_SATOSHI ([] : Script)) ++ [txout]
                 inputs := zero_other_sequences inputs1 txin_index }
      else
        pure { tmp_tx with inputs := inputs1 }
    if sighash &&& SIGHASH_ANYONECANPAY ≠ 0 then
      match stepped.inputs[txin_index]? with
      | none => throw PyErr.indexError
      | some txinA => pure { stepped with inputs := [txinA] }
    else
      pure stepped

/-- `Transaction.get_transaction_digest(txin_index, script, sighash)`:
double SHA-256 of the mutated clone's witness-less serialization followed
by the sighash as 4 bytes little-endian. -/
def get_transaction_digest (sha : List Nat → List Nat) (t : Transaction)
    (txin_index : Nat) (script : Script) (sighash : Nat) : Except PyErr (List Nat) := do
  let tmp_tx ← legacyTmpTx t txin_index script sighash
  let tx_for_signing ← tmp_tx.to_bytes false
  let sighash_bytes ← pack_i32 sighash
  pure (sha (sha (tx_for_signing ++ sighash_bytes)))

/-- One outpoint as serialized in the BIP-143 and BIP-341 preimages:
`unhexlify(txid)[::-1] + struct.pack("<L"/"<I", txout_index)` — the
reversed txid followed by the 4-byte unsigned little-endian index
(`"<L"` and `"<I"` both pack standard-size 4-byte values under the `<`
prefix). -/
def outpoint_bytes (txin : TxInput) : Except PyErr (List Nat) := do
  let idx ← pack_u32 txin.txout_index
  pure (txin.txid.reverse ++ idx)

/-- The `hash_prevouts` local of the BIP-143 digest: 32 zero bytes under
ANYONECANPAY, else the double SHA-256 of all outpoints. -/
def segwit_hash_prevouts (sha : List Nat → List Nat) (t : Transaction) (sighash : Nat) :
    Except PyErr (List Nat) :=
  if ¬(sighash &&& 0xf0 = SIGHASH_ANYONECANPAY) then do
    let d ← t.inputs.foldlM (fun acc txin => do
      let b ← outpoint_bytes txin
      pure (acc ++ b)) []
    pure (sha (sha d))
  else .ok (List.replicate 32 0)

/-- The `hash_sequence` local of the BIP-143 digest: the double SHA-256
of all input sequences when signing all and not ANYONECANPAY, else 32
zero bytes. -/
def segwit_hash_sequence (sha : List Nat → List Nat) (t : Transaction) (sighash : Nat) :
    Except PyErr (List Nat) :=
  if ¬(sighash &&& 0xf0 = SIGHASH_ANYONECANPAY) ∧
      ¬(sighash &&& 0x1f = SIGHASH_SINGLE) ∧ ¬(sighash &&& 0x1f = SIGHASH_NONE) then
    .ok (sha (sha (t.inputs.foldl (fun acc txin => acc ++ txin.sequence) [])))
  else .ok (List.replicate 32 0)

/-- One output as committed in the BIP-143 `hash_outputs`: 8-byte signed
little-endian amount, single-byte script length (`struct.pack("B", …)`),
script bytes. -/
def segwit_output_bytes (txout : TxOutput) : Except PyErr (List Nat) := do
  let amount_bytes ← pack_i64 txout.amount
  let len_byte ← packB txout.script_pubkey.length
  pure (amount_bytes ++ len_byte ++ txout.script_pubkey)

/-- The `hash_outputs` local of the BIP-143 digest: all outputs when
signing all; only output `txin_index` under SIGHASH_SINGLE when it
exists; otherwise 32 zero bytes. -/
def segwit_hash_outputs (sha : List Nat → List Nat) (t : Transaction)
    (txin_index : Nat) (sighash : Nat) : Except PyErr (List Nat) :=
  if ¬(sighash &&& 0x1f = SIGHASH_SINGLE) ∧ ¬(sighash &&& 0x1f = SIGHASH_NONE) then do
    let d ← t.outputs.foldlM (fun acc txout => do
      let b ← segwit_output_bytes txout
      pure (acc ++ b)) []
    pure (sha (sha d))
  else if sighash &&& 0x1f = SIGHASH_SINGLE ∧ txin_index < t.outputs.length then
    match t.outputs[txin_index]? with
    | none => throw PyErr.indexError
    | some txout => do
      let b ← segwit_output_bytes txout
      pure (sha (sha b))
  else .ok (List.replicate 32 0)

/-- `Transaction.get_transaction_segwit_digest(txin_index, script,
amount, sighash)`: the BIP-143 double SHA-256 over version, hashPrevouts,
hashSequence, the signed input's outpoint, the single-byte-length-prefixed
script code, the 8-byte amount, the input sequence, hashOutputs, locktime
and the 4-byte sighash. -/
def get_transaction_segwit_digest (sha : List Nat → List Nat) (t : Transaction)
    (txin_index : Nat) (script : Script) (amount : Int) (sighash : Nat) :
    Except PyErr (List Nat) := do
  let hash_prevouts ← segwit_hash_prevouts sha t sighash
  let hash_sequence ← segwit_hash_sequence sha t sighash
  let hash_outputs ← segwit_hash_outputs sha t txin_index sighash
  match t.inputs[txin_index]? with
  | none => throw PyErr.indexError
  | some txin => do
    let outpoint ← outpoint_bytes txin
    let script_len ← packB script.length
    let amount_bytes ← pack_i64 amount
    let sighash_bytes ← pack_i32 sighash
    pure (sha (sha (t.version ++ hash_prevouts ++ hash_sequence ++ outpoint ++
      script_len ++ script ++ amount_bytes ++ txin.sequence ++ hash_outputs ++
      t.locktime ++ sighash_bytes)))

/-- One amount as committed in the BIP-341 amounts hash:
`a.to_bytes(8, "little")`. -/
def taproot_amount_bytes (a : Int) : Except PyErr (List Nat) :=
  int_to_bytes_le 8 a

/-- One spent scriptPubKey as committed in the BIP-341 scriptPubKeys
hash: a single length byte (`bytes([script_len])`) then the script
bytes. -/
def taproot_spk_bytes (s : Script) : Except PyErr (List Nat) := do
  let len_byte ← bytes1 s.length
  pure (len_byte ++ s)

/-- One output as committed in the BIP-341 outputs hash: 8-byte unsigned
little-endian amount (`struct.pack("<Q", …)`), single-byte script
length, script bytes. -/
def taproot_output_bytes (txout : TxOutput) : Except PyErr (List Nat) := do
  let amount_bytes ← pack_u64 txout.amount
  let len_byte ← packB txout.script_pubkey.length
  pure (amount_bytes ++ len_byte ++ txout.script_pubkey)

/-- The BIP-341 preimage of `get_transaction_taproot_digest` up to and
including the per-input section (source lines 815-899): epoch, sighash
byte, version, locktime, the four single-SHA-256 commitment hashes when
not ANYONECANPAY, the outputs hash when signing all outputs, the
spend-type byte, and either the full outpoint data (ANYONECANPAY) or the
4-byte input index. -/
def taproot_preimage_base (sha : List Nat → List Nat) (t : Transaction)
    (txin_index : Nat) (script_pubkeys : List Script) (amounts : List Int)
    (ext_flag : Nat) (sighash : Nat) : Except PyErr (List Nat) := do
  let tmp_tx := Transaction.copy t
  let sighash_byte ← bytes1 sighash
  let acc := [0] ++ sighash_byte ++ t.version ++ t.locktime
  let acc ←
    if ¬(sighash &&& 0x80 = SIGHASH_ANYONECANPAY) then do
      let hash_prevouts ← tmp_tx.inputs.foldlM (fun a txin => do
        let b ← outpoint_bytes txin
        pure (a ++ b)) []
      let hash_amounts ← amounts.foldlM (fun a amt => do
        let b ← taproot_amount_bytes amt
        pure (a ++ b)) []
      let hash_script_pubkeys ← script_pubkeys.foldlM (fun a s => do
        let b ← taproot_spk_bytes s
        pure (a ++ b)) []
      let hash_sequences := tmp_tx.inputs.foldl (fun a txin => a ++ txin.sequence) []
      pure (acc ++ sha hash_prevouts ++ sha hash_amounts ++
        sha hash_script_pubkeys ++ sha hash_sequences)
    else pure acc
  let acc ←
    if ¬(sighash &&& 0x03 = SIGHASH_NONE) ∧ ¬(sighash &&& 0x03 = SIGHASH_SINGLE) then do
      let hash_outputs ← tmp_tx.outputs.foldlM (fun a txout => do
        let b ← taproot_output_bytes txout
        pure (a ++ b)) []
      pure (acc ++ sha hash_outputs)
    else pure acc
  let spend_type ← bytes1 (ext_flag * 2 + 0)
  let acc := acc ++ spend_type
  if sighash &&& 0x80 = SIGHASH_ANYONECANPAY then
    match tmp_tx.inputs[txin_index]? with
    | none => throw PyErr.indexError
    | some txin => do
      let outpoint ← outpoint_bytes txin
      match amounts[txin_index]? with
      | none => throw PyErr.indexError
      | some amt => do
        let amount_bytes ← taproot_amount_bytes amt
        match script_pubkeys[txin_index]? with
        | none => throw PyErr.indexError
        | some spk => do
          let spk_bytes ← taproot_spk_bytes spk
          pure (acc ++ outpoint ++ amount_bytes ++ spk_bytes ++ txin.sequence)
  else do
    let index_bytes ← int_to_bytes_le 4 txin_index
    pure (acc ++ index_bytes)

/-- The full BIP-341 preimage of `get_transaction_taproot_digest`: the
base section, then under SIGHASH_SINGLE the single-output SHA-256, then
under `ext_flag = 1` the TapLeaf commitment — where line 917 of the
source overwrites the `leaf_ver` argument with `LEAF_VERSION_TAPSCRIPT`
before it is used — the key-version byte 0 and the code-separator
position `0xFFFFFFFF`. -/
def taproot_preimage (sha : List Nat → List Nat) (t : Transaction)
    (txin_index : Nat) (script_pubkeys : List Script) (amounts : List Int)
    (ext_flag : Nat) (script : Script) (leaf_ver : Nat) (sighash : Nat) :
    Except PyErr (List Nat) := do
  let tmp_tx := Transaction.copy t
  let acc ← taproot_preimage_base sha t txin_index script_pubkeys amounts ext_flag sighash
  let acc ←
    if sighash &&& 0x03 = SIGHASH_SINGLE then
      match tmp_tx.outputs[txin_index]? with
      | none => throw PyErr.indexError
      | some txout => do
        let b ← taproot_output_bytes txout
        pure (acc ++ sha b)
    else pure acc
  if ext_flag = 1 then do
    let leaf_ver := LEAF_VERSION_TAPSCRIPT
    let leaf_byte ← bytes1 leaf_ver
    pure (acc ++ tagged_hash sha (leaf_byte ++ prepend_varint script) tapLeafTag ++
      [0] ++ [255, 255, 255, 255])
  else pure acc

/-- `Transaction.get_transaction_taproot_digest(txin_index,
script_pubkeys, amounts, ext_flag, script, leaf_ver, sighash)`: the
tagged hash (tag `"TapSighash"`) of the BIP-341 preimage. -/
def get_transaction_taproot_digest (sha : List Nat → List Nat) (t : Transaction)
    (txin_index : Nat) (script_pubkeys : List Script) (amounts : List Int)
    (ext_flag : Nat) (script : Script) (leaf_ver : Nat) (sighash : Nat) :
    Except PyErr (List Nat) := do
  let tx_for_signing ←
    taproot_preimage sha t txin_index script_pubkeys amounts ext_flag script leaf_ver sighash
  pure (tagged_hash sha tx_for_signing tapSighashTag)

/-- Modelled from the spec's words for claim C7 ("the count is emitted as
a single raw byte"): the witness section with each stack-item count as
exactly one raw byte whose value is the count.  Used as the reference
form the serializer is compared against. -/
def claimed_witness_section (ws : List TxWitnessInput) : List Nat :=
  (ws.map (fun w => w.stack.length :: w.to_bytes)).flatten

/-- Modelled from the spec's words for claim C7: `Transaction.to_bytes`
as the claim describes it, with single-raw-byte witness stack counts;
identical to `Transaction.to_bytes` everywhere else. -/
def claimed_to_bytes (tx : Transaction) (has_segwit : Bool) : Except PyErr (List Nat) := do
  let marker : List Nat := if has_segwit then [0, 1] else []
  let ins ← tx.inputs.foldlM (fun acc txin => do
    let b ← txin.to_bytes
    pure (acc ++ b)) []
  let outs ← tx.outputs.foldlM (fun acc txout => do
    let b ← txout.to_bytes
    pure (acc ++ b)) []
  let wits : List Nat := if has_segwit then claimed_witness_section tx.witnesses else []
  pure (tx.version ++ marker ++ encode_varint tx.inputs.length ++ ins ++
    encode_varint tx.outputs.length ++ outs ++ wits ++ tx.locktime)

/-! ### Basic facts about the embedding -/

theorem ok_bind {ε α β : Type} (a : α) (f : α → Except ε β) :
    (Except.ok a : Except ε α) >>= f = f a := rfl

theorem pure_eq_ok {ε α : Type} (a : α) : (pure a : Except ε α) = .ok a := rfl

theorem throw_eq_error {ε α : Type} (e : ε) : (throw e : Except ε α) = .error e := rfl

theorem error_bind {ε α β : Type} (e : ε) (f : α → Except ε β) :
    (Except.error e : Except ε α) >>= f = .error e := rfl

theorem natLE_length (w n : Nat) : (natLE w n).length = w := by
  induction w generalizing n with
  | zero => rfl
  | succ w ih => simp [natLE, ih]

theorem txinput_copy_eq (txin : TxInput) : TxInput.copy txin = txin := rfl

theorem txoutput_copy_eq (txout : TxOutput) : TxOutput.copy txout = txout := rfl

theorem txwitness_copy_eq (w : TxWitnessInput) : TxWitnessInput.copy w = w := rfl

theorem transaction_copy_eq (tx : Transaction) : Transaction.copy tx = tx := by
  have h1 : TxInput.copy = id := funext fun _ => rfl
  have h2 : TxOutput.copy = id := funext fun _ => rfl
  have h3 : TxWitnessInput.copy = id := funext fun _ => rfl
  simp [Transaction.copy, h1, h2, h3]

/-- Reference form of the accumulating `data += block(x)` loops: the
monadic concatenation of `g` over a list. -/
def concatM {α : Type} (g : α → Except PyErr (List Nat)) : List α → Except PyErr (List Nat)
  | [] => .ok []
  | x :: xs => do
    let b ← g x
    let rest ← concatM g xs
    pure (b ++ rest)

theorem foldlM_concat {α : Type} (g : α → Except PyErr (List Nat)) (l : List α)
    (init : List Nat) :
    l.foldlM (fun acc a => do
      let b ← g a
      pure (acc ++ b)) init = (concatM g l).map (fun r => init ++ r) := by
  induction l generalizing init with
  | nil =>
    show (pure init : Except PyErr (List Nat)) = Except.map (fun r => init ++ r) (Except.ok [])
    simp [Except.map, pure_eq_ok]
  | cons x xs ih =>
    rw [List.foldlM_cons, concatM]
    cases hgx : g x with
    | error e => simp [error_bind, Except.map]
    | ok b =>
      show List.foldlM (fun acc a => do
          let b ← g a
          pure (acc ++ b)) (init ++ b) xs =
        Except.map (fun r => init ++ r) (do
          let rest ← concatM g xs
          pure (b ++ rest))
      rw [ih]
      cases hrest : concatM g xs with
      | error e => simp [error_bind, Except.map]
      | ok r => simp [ok_bind, pure_eq_ok, Except.map, List.append_assoc]

theorem foldlM_concat_ok {α : Type} (g : α → Except PyErr (List Nat)) (l : List α)
    (init : List Nat) :
    l.foldlM (fun acc a => g a >>= fun b => Except.ok (acc ++ b)) init =
      (concatM g l).map (fun r => init ++ r) :=
  foldlM_concat g l init

theorem concatM_eq_flatten {α : Type} (g : α → Except PyErr (List Nat)) (f : α → List Nat)
    (l : List α) (H : ∀ a ∈ l, g a = .ok (f a)) :
    concatM g l = .ok (l.map f).flatten := by
  induction l with
  | nil => simp [concatM]
  | cons x xs ih =>
    have hx := H x (List.mem_cons_self x xs)
    have ihh := ih (fun a ha => H a (List.mem_cons_of_mem x ha))
    simp [concatM, hx, ihh, ok_bind]

theorem concatM_ok {α : Type} (g : α → Except PyErr (List Nat)) (l : List α)
    (H : ∀ a ∈ l, ∃ b, g a = .ok b) : ∃ r, concatM g l = .ok r := by
  induction l with
  | nil => exact ⟨[], rfl⟩
  | cons x xs ih =>
    obtain ⟨b, hb⟩ := H x (List.mem_cons_self x xs)
    obtain ⟨r, hr⟩ := ih (fun a ha => H a (List.mem_cons_of_mem x ha))
    exact ⟨b ++ r, by simp [concatM, hb, hr, ok_bind]⟩

theorem zero_other_sequences_aux_length (ti : Nat) :
    ∀ (l : List TxInput) (cur : Nat), (zero_other_sequences_aux ti cur l).length = l.length := by
  intro l
  induction l with
  | nil => intro cur; rfl
  | cons x xs ih => intro cur; simp [zero_other_sequences_aux, ih (cur + 1)]

theorem zero_other_sequences_aux_getElem? (ti : Nat) :
    ∀ (l : List TxInput) (cur k : Nat),
      (zero_other_sequences_aux ti cur l)[k]? =
        (l[k]?).map
          (fun x => if cur + k ≠ ti then { x with sequence := EMPTY_TX_SEQUENCE } else x) := by
  intro l
  induction l with
  | nil => intro cur k; simp [zero_other_sequences_aux]
  | cons x xs ih =>
    intro cur k
    cases k with
    | zero => simp [zero_other_sequences_aux]
    | succ k =>
      have : cur + (k + 1) = (cur + 1) + k := by omega
      simp [zero_other_sequences_aux, ih (cur + 1) k, this]

theorem zero_other_sequences_length (inputs : List TxInput) (ti : Nat) :
    (zero_other_sequences inputs ti).length = inputs.length :=
  zero_other_sequences_aux_length ti inputs 0

theorem zero_other_sequences_getElem? (inputs : List TxInput) (ti k : Nat) :
    (zero_other_sequences inputs ti)[k]? =
      (inputs[k]?).map
        (fun x => if k ≠ ti then { x with sequence := EMPTY_TX_SEQUENCE } else x) := by
  have h := zero_other_sequences_aux_getElem? ti inputs 0 k
  simpa [zero_other_sequences] using h

/-! ### Claim C8: txid is independent of witnesses -/

/-- Claim C8: for every pair of transactions that differ only in their
witnesses (same version, inputs, outputs, locktime, has_segwit),
`get_txid` agrees: the txid never depends on any witness stack, because
it hashes the serialization with `include_witness = false`. -/
theorem c8_txid_independent_of_witnesses (sha : List Nat → List Nat) (t t' : Transaction)
    (hv : t.version = t'.version) (hi : t.inputs = t'.inputs) (ho : t.outputs = t'.outputs)
    (hl : t.locktime = t'.locktime) (hs : t.has_segwit = t'.has_segwit) :
    Transaction.get_txid sha t = Transaction.get_txid sha t' := by
  unfold Transaction.get_txid Transaction.to_bytes
  rw [hv, hi, ho, hl]
  simp

/-- A segwit transaction used as the concrete instance for claim C8. -/
def txW8a : Transaction :=
  { inputs := [⟨List.replicate 32 0, 0, [], DEFAULT_TX_SEQUENCE⟩]
    outputs := [⟨1000, [0x51]⟩]
    has_segwit := true
    witnesses := [⟨[[1, 2, 3]]⟩]
    locktime := [0, 0, 0, 0]
    version := [2, 0, 0, 0] }

/-- The same transaction as `txW8a` with a mutated witness stack. -/
def txW8b : Transaction :=
  { txW8a with witnesses := [⟨[[9, 9]]⟩] }

/-- Witness for claim C8 at a concrete pair of transactions differing
only in a witness stack item. -/
theorem c8_witness :
    Transaction.get_txid (fun l => l) txW8a = Transaction.get_txid (fun l => l) txW8b :=
  c8_txid_independent_of_witnesses (fun l => l) txW8a txW8b rfl rfl rfl rfl rfl

/-! ### Claim C6: parse-serialize round trip -/

/-- A valid non-segwit transaction with non-default version and locktime,
the failing input for claim C6. -/
def txC6 : Transaction :=
  { inputs := [⟨List.replicate 32 0xAA, 1, [0x51], DEFAULT_TX_SEQUENCE⟩]
    outputs := [⟨5000, [0x52, 0x53]⟩]
    has_segwit := false
    witnesses := []
    locktime := [9, 0, 0, 0]
    version := [1, 0, 0, 0] }

/-- Claim C6 fails on the code: parsing the serialization of `txC6`
(version `01000000`, locktime `09000000`) yields a transaction whose
version and locktime are the constructor defaults — `from_raw` parses the
version into a dead local and never reads the locktime — so the
round-trip is not the identity. -/
theorem c6_roundtrip_drops_version_locktime :
    (do
      let raw ← txC6.to_bytes txC6.has_segwit
      Transaction.from_raw raw) =
      .ok { txC6 with version := DEFAULT_TX_VERSION, locktime := DEFAULT_TX_LOCKTIME } ∧
    (do
      let raw ← txC6.to_bytes txC6.has_segwit
      Transaction.from_raw raw) ≠ .ok txC6 := by
  exact ⟨by decide, by decide⟩

/-! ### Claim C7: witness stack count byte -/

/-- A segwit transaction whose only witness stack has 128 items: a
counterexample input for claim C7 (128 ≤ 255, but
`chr(128).encode()` is the two bytes `C2 80`, not one raw byte). -/
def txC7 : Transaction :=
  { inputs := [⟨List.replicate 32 0, 0, [], DEFAULT_TX_SEQUENCE⟩]
    outputs := [⟨1000, [0x51]⟩]
    has_segwit := true
    witnesses := [⟨List.replicate 128 []⟩]
    locktime := [0, 0, 0, 0]
    version := [2, 0, 0, 0] }

/-- Claim C7 fails on the code: for a witness stack of 128 items (within
the claimed "at most 255"), the serializer's output differs from the
claim's single-raw-byte-count form (`claimed_to_bytes`), although the
serializer succeeds. -/
theorem c7_counterexample :
    (txC7.witnesses.map (fun w => w.stack.length)) = [128] ∧
    (Transaction.to_bytes txC7 true).toOption.isSome = true ∧
    Transaction.to_bytes txC7 true ≠ claimed_to_bytes txC7 true := by
  exact ⟨by decide, by decide, by decide⟩

/-- Claim C7 amended: for witness stacks of at most 127 items the count
is emitted as exactly one raw byte whose value is the count, followed by
the VarInt-prefixed items; stacks of 128 to 255 items instead emit the
two-byte UTF-8 encoding of the count. -/
theorem c7_amended_witness_count (ws : List TxWitnessInput)
    (H : ∀ w ∈ ws, w.stack.length ≤ 127) :
    witness_section_bytes ws = .ok (claimed_witness_section ws) := by
  unfold witness_section_bytes
  rw [foldlM_concat witness_block ws []]
  rw [concatM_eq_flatten witness_block (fun w => w.stack.length :: w.to_bytes) ws ?_]
  · simp [Except.map, claimed_witness_section]
  · intro w hw
    have hlen := H w hw
    show (do
      let c ← chrEncode w.stack.length
      pure (c ++ w.to_bytes)) = .ok (w.stack.length :: w.to_bytes)
    rw [show chrEncode w.stack.length = .ok [w.stack.length] from by
      unfold chrEncode
      rw [if_pos (by omega)]]
    rfl

/-- Witness for the amended claim C7 at a concrete two-item stack. -/
theorem c7_witness :
    witness_section_bytes [⟨[[1, 2], [3]]⟩] =
      .ok (claimed_witness_section [⟨[[1, 2], [3]]⟩]) :=
  c7_amended_witness_count [⟨[[1, 2], [3]]⟩] (by decide)

/-! ### Claim C2: segwit v0 outpoints are 4-byte u32le -/

/-- Claim C2: the BIP-143 digest serializes every outpoint's
`txout_index` as exactly 4 bytes unsigned little-endian — with the `<`
prefix `struct.pack("<L", …)` packs the standard 4-byte size, despite
the TODO comment's fear — so each outpoint contributes exactly 36 bytes
(32-byte reversed txid plus 4-byte index).  `outpoint_bytes` is the
serialization shared by the hashPrevouts concatenation and the per-input
outpoint section of `get_transaction_segwit_digest`; the hashPrevouts
preimage is the concatenation of these 36-byte blocks over all inputs. -/
theorem c2_segwit_outpoint_u32le (sha : List Nat → List Nat) (t : Transaction)
    (sighash : Nat)
    (H : ∀ txin ∈ t.inputs, txin.txid.length = 32 ∧ txin.txout_index < 2 ^ 32)
    (hanyone : ¬(sighash &&& 0xf0 = SIGHASH_ANYONECANPAY)) :
    (∀ txin ∈ t.inputs,
      outpoint_bytes txin = .ok (txin.txid.reverse ++ natLE 4 txin.txout_index) ∧
      (natLE 4 txin.txout_index).length = 4 ∧
      (txin.txid.reverse ++ natLE 4 txin.txout_index).length = 36) ∧
    segwit_hash_prevouts sha t sighash =
      .ok (sha (sha ((t.inputs.map
        (fun txin => txin.txid.reverse ++ natLE 4 txin.txout_index)).flatten))) := by
  have hout : ∀ txin ∈ t.inputs,
      outpoint_bytes txin = .ok (txin.txid.reverse ++ natLE 4 txin.txout_index) := by
    intro txin htxin
    unfold outpoint_bytes pack_u32
    rw [if_pos (H txin htxin).2]
    rfl
  refine ⟨?_, ?_⟩
  · intro txin htxin
    refine ⟨hout txin htxin, natLE_length 4 _, ?_⟩
    simp [natLE_length, (H txin htxin).1]
  · unfold segwit_hash_prevouts
    rw [if_pos hanyone, foldlM_concat outpoint_bytes t.inputs [],
      concatM_eq_flatten outpoint_bytes _ t.inputs hout]
    simp [Except.map, ok_bind, pure_eq_ok]

/-- A two-input transaction used as the concrete instance for claim
C2. -/
def txW2 : Transaction :=
  { inputs := [⟨List.replicate 32 7, 5, [], DEFAULT_TX_SEQUENCE⟩,
               ⟨List.replicate 32 8, 0xFFFF, [0x51], [0, 0, 0, 1]⟩]
    outputs := [⟨1, [0x51]⟩]
    has_segwit := true
    witnesses := [⟨[]⟩, ⟨[]⟩]
    locktime := [0, 0, 0, 0]
    version := [2, 0, 0, 0] }

/-- Witness for claim C2 at a concrete two-input transaction. -/
theorem c2_witness :
    (∀ txin ∈ txW2.inputs,
      outpoint_bytes txin = .ok (txin.txid.reverse ++ natLE 4 txin.txout_index) ∧
      (natLE 4 txin.txout_index).length = 4 ∧
      (txin.txid.reverse ++ natLE 4 txin.txout_index).length = 36) ∧
    segwit_hash_prevouts (fun l => l) txW2 SIGHASH_ALL =
      .ok ((fun l => l) ((fun l => l) ((txW2.inputs.map
        (fun txin => txin.txid.reverse ++ natLE 4 txin.txout_index)).flatten))) :=
  c2_segwit_outpoint_u32le (fun l => l) txW2 SIGHASH_ALL (by decide) (by decide)

/-! ### Claim C3: segwit SIGHASH_SINGLE with out-of-range index -/

/-- Claim C3: for an input index `txin_index` of the transaction with
`txin_index ≥ len(outputs)`, the segwit v0 digest under SIGHASH_SINGLE
does not fail: `hash_outputs` stays its default of 32 zero bytes and the
digest is returned (the well-formedness hypotheses on the other fields
are what any transaction built through the library satisfies). -/
theorem c3_segwit_single_out_of_range (sha : List Nat → List Nat) (t : Transaction)
    (txin_index : Nat) (script : Script) (amount : Int) (sighash : Nat)
    (hin : txin_index < t.inputs.length)
    (hout : t.outputs.length ≤ txin_index)
    (hsig : sighash &&& 0x1f = SIGHASH_SINGLE)
    (hidx : ∀ txin ∈ t.inputs, txin.txout_index < 2 ^ 32)
    (hscript : script.length ≤ 255)
    (hamount : -(2 ^ 63) ≤ amount ∧ amount < 2 ^ 63)
    (hsh : sighash < 2 ^ 31) :
    segwit_hash_outputs sha t txin_index sighash = .ok (List.replicate 32 0) ∧
    ∃ d, get_transaction_segwit_digest sha t txin_index script amount sighash = .ok d := by
  have hho : segwit_hash_outputs sha t txin_index sighash = .ok (List.replicate 32 0) := by
    unfold segwit_hash_outputs
    rw [if_neg (by simp [hsig]), if_neg (by simp [hsig]; omega)]
  have hhp : ∃ v, segwit_hash_prevouts sha t sighash = .ok v := by
    unfold segwit_hash_prevouts
    by_cases ha : ¬(sighash &&& 0xf0 = SIGHASH_ANYONECANPAY)
    · obtain ⟨r, hr⟩ := concatM_ok outpoint_bytes t.inputs (fun txin htxin =>
        ⟨txin.txid.reverse ++ natLE 4 txin.txout_index, by
          unfold outpoint_bytes pack_u32
          rw [if_pos (hidx txin htxin)]
          rfl⟩)
      rw [if_pos ha, foldlM_concat outpoint_bytes t.inputs [], hr]
      exact ⟨_, rfl⟩
    · rw [if_neg ha]
      exact ⟨_, rfl⟩
  have hhs : ∃ v, segwit_hash_sequence sha t sighash = .ok v := by
    unfold segwit_hash_sequence
    by_cases h : ¬(sighash &&& 0xf0 = SIGHASH_ANYONECANPAY) ∧
        ¬(sighash &&& 0x1f = SIGHASH_SINGLE) ∧ ¬(sighash &&& 0x1f = SIGHASH_NONE)
    · rw [if_pos h]
      exact ⟨_, rfl⟩
    · rw [if_neg h]
      exact ⟨_, rfl⟩
  obtain ⟨hp, hhp⟩ := hhp
  obtain ⟨hsv, hhs⟩ := hhs
  obtain ⟨txin, hget⟩ : ∃ txin, t.inputs[txin_index]? = some txin :=
    ⟨_, List.getElem?_eq_getElem hin⟩
  have hop : outpoint_bytes txin = .ok (txin.txid.reverse ++ natLE 4 txin.txout_index) := by
    unfold outpoint_bytes pack_u32
    rw [if_pos (hidx txin (List.getElem?_mem hget))]
    rfl
  have hpackB : packB script.length = .ok [script.length] := by
    unfold packB
    rw [if_pos hscript]
  have hp64 : pack_i64 amount = .ok (natLE 8 (amount % (2 ^ 64 : Int)).toNat) := by
    unfold pack_i64
    rw [if_pos hamount]
  have hp32 : pack_i32 sighash = .ok (natLE 4 sighash) := by
    unfold pack_i32
    rw [if_pos hsh]
  refine ⟨hho, ?_⟩
  unfold get_transaction_segwit_digest
  rw [hhp, ok_bind, hhs, ok_bind, hho, ok_bind, hget]
  simp only [hop, hpackB, hp64, hp32, ok_bind, pure_eq_ok]
  exact ⟨_, rfl⟩

/-- A two-input, one-output segwit-style transaction used as the
concrete instance for claim C3 (`txin_index = 1 ≥ 1 = len(outputs)`). -/
def txW3 : Transaction :=
  { inputs := [⟨List.replicate 32 1, 0, [], DEFAULT_TX_SEQUENCE⟩,
               ⟨List.replicate 32 2, 1, [], DEFAULT_TX_SEQUENCE⟩]
    outputs := [⟨1500, [0x51]⟩]
    has_segwit := true
    witnesses := [⟨[]⟩, ⟨[]⟩]
    locktime := [0, 0, 0, 0]
    version := [2, 0, 0, 0] }

/-- Witness for claim C3 at a concrete transaction and out-of-range
output index. -/
theorem c3_witness :
    segwit_hash_outputs (fun l => l) txW3 1 SIGHASH_SINGLE = .ok (List.replicate 32 0) ∧
    ∃ d, get_transaction_segwit_digest (fun l => l) txW3 1 [0x51] 1500 SIGHASH_SINGLE = .ok d :=
  c3_segwit_single_out_of_range (fun l => l) txW3 1 [0x51] 1500 SIGHASH_SINGLE
    (by decide) (by decide) (by decide) (by decide) (by decide) (by decide) (by decide)

/-! ### Claim C1: legacy SIGHASH_SINGLE committed transaction -/

/-- Claim C1: under legacy SIGHASH_SINGLE (any ANYONECANPAY combination)
with a valid input index `txin_index < len(outputs)`, the transaction
committed to by `get_transaction_digest` — the mutated clone that is
serialized and double-hashed — has an output list of length
`txin_index + 1` whose first `txin_index` entries are placeholders with
amount −1 and empty script and whose last entry is the original output
`txin_index`; every input at a position other than `txin_index` carries
the four-zero-byte sequence (under ANYONECANPAY only input `txin_index`
remains, so no other input appears in the committed serialization). -/
theorem c1_legacy_single_commit (sha : List Nat → List Nat) (t : Transaction)
    (txin_index : Nat) (script : Script) (sighash : Nat)
    (hin : txin_index < t.inputs.length)
    (hout : txin_index < t.outputs.length)
    (hsig : sighash &&& 0x1f = SIGHASH_SINGLE) :
    ∃ tmp, legacyTmpTx t txin_index script sighash = .ok tmp ∧
      get_transaction_digest sha t txin_index script sighash = (do
        let b ← tmp.to_bytes false
        let sh ← pack_i32 sighash
        pure (sha (sha (b ++ sh)))) ∧
      tmp.outputs.length = txin_index + 1 ∧
      (∀ j, j < txin_index → tmp.outputs[j]? = some ⟨NEGATIVE_SATOSHI, []⟩) ∧
      tmp.outputs[txin_index]? = t.outputs[txin_index]? ∧
      (sighash &&& 0x80 = 0 →
        tmp.inputs.length = t.inputs.length ∧
        ∀ j, j < t.inputs.length → j ≠ txin_index →
          (tmp.inputs[j]?).map TxInput.sequence = some EMPTY_TX_SEQUENCE) ∧
      (sighash &&& 0x80 ≠ 0 → tmp.inputs.length = 1) := by
  obtain ⟨txin, hgetin⟩ : ∃ x, t.inputs[txin_index]? = some x :=
    ⟨_, List.getElem?_eq_getElem hin⟩
  obtain ⟨txout, hgetout⟩ : ∃ x, t.outputs[txin_index]? = some x :=
    ⟨_, List.getElem?_eq_getElem hout⟩
  have houts_len :
      ((List.range txin_index).map (fun _ => TxOutput.mk NEGATIVE_SATOSHI ([] : Script)) ++
        [txout]).length = txin_index + 1 := by
    simp
  have houts_lt : ∀ j, j < txin_index →
      ((List.range txin_index).map (fun _ => TxOutput.mk NEGATIVE_SATOSHI ([] : Script)) ++
        [txout])[j]? = some ⟨NEGATIVE_SATOSHI, []⟩ := by
    intro j hj
    rw [List.getElem?_append_left (by simp [hj]), List.getElem?_map, List.getElem?_range hj]
    rfl
  have houts_at :
      ((List.range txin_index).map (fun _ => TxOutput.mk NEGATIVE_SATOSHI ([] : Script)) ++
        [txout])[txin_index]? = t.outputs[txin_index]? := by
    rw [List.getElem?_append_right (by simp), hgetout]
    simp
  have hlen1 :
      ((t.inputs.map (fun txi => { txi with script_sig := ([] : Script) })).set txin_index
        { txin with script_sig := script }).length = t.inputs.length := by
    simp
  have hzlen :
      (zero_other_sequences
        ((t.inputs.map (fun txi => { txi with script_sig := ([] : Script) })).set txin_index
          { txin with script_sig := script }) txin_index).length = t.inputs.length := by
    rw [zero_other_sequences_length, hlen1]
  have hzseq : ∀ j, j < t.inputs.length → j ≠ txin_index →
      ((zero_other_sequences
        ((t.inputs.map (fun txi => { txi with script_sig := ([] : Script) })).set txin_index
          { txin with script_sig := script }) txin_index)[j]?).map TxInput.sequence =
        some EMPTY_TX_SEQUENCE := by
    intro j hj hne
    obtain ⟨x, hx⟩ :
        ∃ x, ((t.inputs.map (fun txi => { txi with script_sig := ([] : Script) })).set txin_index
          { txin with script_sig := script })[j]? = some x :=
      ⟨_, List.getElem?_eq_getElem (by rw [hlen1]; exact hj)⟩
    rw [zero_other_sequences_getElem?, hx]
    simp [hne]
  by_cases hacp : sighash &&& 0x80 = 0
  · have hEq : legacyTmpTx t txin_index script sighash =
        .ok { t with
              outputs := (List.range txin_index).map
                  (fun _ => TxOutput.mk NEGATIVE_SATOSHI ([] : Script)) ++ [txout]
              inputs := zero_other_sequences
                ((t.inputs.map (fun txi => { txi with script_sig := ([] : Script) })).set
                  txin_index { txin with script_sig := script }) txin_index } := by
      simp +decide only [legacyTmpTx, transaction_copy_eq, List.getElem?_map, hgetin,
        Option.map_some', hsig, hgetout, hacp, pure_eq_ok, ok_bind, ne_eq, ite_true, ite_false]
    refine ⟨_, hEq, ?_, houts_len, houts_lt, houts_at,
      fun _ => ⟨hzlen, hzseq⟩, fun hc => absurd hacp hc⟩
    unfold get_transaction_digest
    rw [hEq, ok_bind]
  · have hstep_len :
        (zero_other_sequences
          ((t.inputs.map (fun txi => { txi with script_sig := ([] : Script) })).set txin_index
            { txin with script_sig := script }) txin_index).length = t.inputs.length := hzlen
    obtain ⟨txinA, hA⟩ :
        ∃ x, (zero_other_sequences
          ((t.inputs.map (fun txi => { txi with script_sig := ([] : Script) })).set txin_index
            { txin with script_sig := script }) txin_index)[txin_index]? = some x :=
      ⟨_, List.getElem?_eq_getElem (by rw [hstep_len]; exact hin)⟩
    have hEq : legacyTmpTx t txin_index script sighash =
        .ok { t with
              outputs := (List.range txin_index).map
                  (fun _ => TxOutput.mk NEGATIVE_SATOSHI ([] : Script)) ++ [txout]
              inputs := [txinA] } := by
      simp +decide only [legacyTmpTx, transaction_copy_eq, List.getElem?_map, hgetin,
        Option.map_some', hsig, hgetout, hacp, hA, pure_eq_ok, ok_bind, ne_eq, ite_true, ite_false]
    refine ⟨_, hEq, ?_, houts_len, houts_lt, houts_at,
      fun hc => absurd hc hacp, fun _ => rfl⟩
    unfold get_transaction_digest
    rw [hEq, ok_bind]

/-- A three-input, three-output transaction used as the concrete
instance for claim C1. -/
def txW1 : Transaction :=
  { inputs := [⟨List.replicate 32 1, 0, [0x60], [1, 1, 1, 1]⟩,
               ⟨List.replicate 32 2, 1, [], DEFAULT_TX_SEQUENCE⟩,
               ⟨List.replicate 32 3, 2, [], [2, 2, 2, 2]⟩]
    outputs := [⟨100, [0x51]⟩, ⟨200, [0x52]⟩, ⟨300, [0x53]⟩]
    has_segwit := false
    witnesses := []
    locktime := [0, 0, 0, 0]
    version := [2, 0, 0, 0] }

/-- Witness for claim C1 at a concrete three-input transaction,
`txin_index = 1`, `sighash = SIGHASH_SINGLE`. -/
theorem c1_witness :
    ∃ tmp, legacyTmpTx txW1 1 [0x51] SIGHASH_SINGLE = .ok tmp ∧
      get_transaction_digest (fun l => l) txW1 1 [0x51] SIGHASH_SINGLE = (do
        let b ← tmp.to_bytes false
        let sh ← pack_i32 SIGHASH_SINGLE
        pure ((fun l => l) ((fun l => l) (b ++ sh)))) ∧
      tmp.outputs.length = 1 + 1 ∧
      (∀ j, j < 1 → tmp.outputs[j]? = some ⟨NEGATIVE_SATOSHI, []⟩) ∧
      tmp.outputs[1]? = txW1.outputs[1]? ∧
      (SIGHASH_SINGLE &&& 0x80 = 0 →
        tmp.inputs.length = txW1.inputs.length ∧
        ∀ j, j < txW1.inputs.length → j ≠ 1 →
          (tmp.inputs[j]?).map TxInput.sequence = some EMPTY_TX_SEQUENCE) ∧
      (SIGHASH_SINGLE &&& 0x80 ≠ 0 → tmp.inputs.length = 1) :=
  c1_legacy_single_commit (fun l => l) txW1 1 [0x51] SIGHASH_SINGLE
    (by decide) (by decide) (by decide)

/-! ### Claim C4: taproot TapLeaf commitment and the leaf version -/

/-- Modelled from the spec's words for claim C4: the tail the claim says
`ext_flag = 1` appends to the preimage for a caller-supplied leaf
version `v` — `tagged_hash("TapLeaf", byte(v) ‖ varint(len(script)) ‖
script)`, then the key-version byte 0 and the code-separator position
`FFFFFFFF`. -/
def claimed_tapleaf_tail (sha : List Nat → List Nat) (v : Nat) (script : Script) : List Nat :=
  tagged_hash sha ([v] ++ prepend_varint script) tapLeafTag ++ [0] ++ [255, 255, 255, 255]

/-- A one-input, one-output transaction used as the concrete instance
for claims C4 and C5. -/
def txC4 : Transaction :=
  { inputs := [⟨List.replicate 32 0xAA, 0, [], [0, 0, 0, 0]⟩]
    outputs := [⟨500, [0x51]⟩]
    has_segwit := true
    witnesses := [⟨[]⟩]
    locktime := [0, 0, 0, 0]
    version := [2, 0, 0, 0] }

/-- Claim C4 fails on the code: calling the taproot digest with
`ext_flag = 1` and the caller-supplied leaf version `0x00` produces a
preimage, but that preimage does not end with the TapLeaf commitment for
leaf version `0x00` the claim promises — it ends with the commitment for
`0xC0`, because line 917 overwrites the argument.  (`sha` is
instantiated with the identity so both sides are concrete byte
strings.) -/
theorem c4_counterexample :
    (taproot_preimage (fun l => l) txC4 0 [[0x51]] [1000] 1 [0x51] 0x00 1).map
      (fun p => (claimed_tapleaf_tail (fun l => l) 0x00 [0x51]).isSuffixOf p) = .ok false ∧
    (taproot_preimage (fun l => l) txC4 0 [[0x51]] [1000] 1 [0x51] 0x00 1).map
      (fun p => (claimed_tapleaf_tail (fun l => l) LEAF_VERSION_TAPSCRIPT [0x51]).isSuffixOf p) =
      .ok true := by
  exact ⟨by decide, by decide⟩

/-- Claim C4 amended: with `ext_flag = 1` the TapLeaf commitment
appended to the preimage always uses `LEAF_VERSION_TAPSCRIPT` (`0xC0`):
the caller-supplied `leaf_ver` argument is ignored because the source
overwrites it before use, so for every leaf version argument the
preimage ends with the `0xC0` TapLeaf tail. -/
theorem c4_amended_leaf_version_ignored (sha : List Nat → List Nat) (t : Transaction)
    (txin_index : Nat) (script_pubkeys : List Script) (amounts : List Int)
    (script : Script) (leaf_ver sighash : Nat) (P : List Nat)
    (h : taproot_preimage sha t txin_index script_pubkeys amounts 1 script leaf_ver sighash =
      .ok P) :
    ∃ base, P = base ++ claimed_tapleaf_tail sha LEAF_VERSION_TAPSCRIPT script := by
  unfold taproot_preimage at h
  rw [transaction_copy_eq] at h
  cases hbase : taproot_preimage_base sha t txin_index script_pubkeys amounts 1 sighash with
  | error e =>
    rw [hbase, error_bind] at h
    exact Except.noConfusion h
  | ok acc =>
    rw [hbase, ok_bind] at h
    by_cases hsingle : sighash &&& 0x03 = SIGHASH_SINGLE
    · rw [if_pos hsingle] at h
      cases hget : t.outputs[txin_index]? with
      | none =>
        simp +decide only [hget, throw_eq_error, error_bind] at h
        exact Except.noConfusion h
      | some txout =>
        simp +decide only [hget] at h
        cases hob : taproot_output_bytes txout with
        | error e =>
          simp +decide only [hob, error_bind] at h
          exact Except.noConfusion h
        | ok ob =>
          simp +decide only [hob, ok_bind, pure_eq_ok, bytes1, ite_true, ite_false] at h
          injection h with h'
          exact ⟨acc ++ sha ob, by
            rw [← h']
            simp [claimed_tapleaf_tail, List.append_assoc]⟩
    · rw [if_neg hsingle, pure_eq_ok, ok_bind] at h
      simp +decide only [bytes1, pure_eq_ok, ok_bind, ite_true, ite_false] at h
      injection h with h'
      exact ⟨acc, by
        rw [← h']
        simp [claimed_tapleaf_tail, List.append_assoc]⟩

/-- Witness for the amended claim C4 at a concrete instance whose leaf
version argument is `0x00`: the produced preimage still ends with the
`0xC0` TapLeaf tail. -/
theorem c4_witness :
    ∃ base,
      (taproot_preimage (fun l => l) txC4 0 [[0x51]] [1000] 1 [0x51] 0x00 1).toOption.getD [] =
        base ++ claimed_tapleaf_tail (fun l => l) LEAF_VERSION_TAPSCRIPT [0x51] :=
  c4_amended_leaf_version_ignored (fun l => l) txC4 0 [[0x51]] [1000] [0x51] 0x00 1 _ (by decide)

/-! ### Claims C10 and C5: taproot error behavior -/

theorem outpoint_bytes_ok (txin : TxInput) (h : txin.txout_index < 2 ^ 32) :
    outpoint_bytes txin = .ok (txin.txid.reverse ++ natLE 4 txin.txout_index) := by
  unfold outpoint_bytes pack_u32
  rw [if_pos h]
  rfl

theorem taproot_amount_bytes_ok (a : Int) (h : 0 ≤ a ∧ a < 2 ^ 64) :
    taproot_amount_bytes a = .ok (natLE 8 a.toNat) := by
  unfold taproot_amount_bytes int_to_bytes_le
  rw [if_pos ⟨h.1, h.2⟩]

theorem taproot_spk_bytes_ok (s : Script) (h : s.length ≤ 255) :
    taproot_spk_bytes s = .ok (s.length :: s) := by
  unfold taproot_spk_bytes bytes1
  rw [if_pos h]
  rfl

theorem taproot_output_bytes_ok (o : TxOutput) (h1 : 0 ≤ o.amount ∧ o.amount < 2 ^ 64)
    (h2 : o.script_pubkey.length ≤ 255) :
    taproot_output_bytes o =
      .ok (natLE 8 o.amount.toNat ++ [o.script_pubkey.length] ++ o.script_pubkey) := by
  unfold taproot_output_bytes pack_u64 packB
  rw [if_pos h1]
  simp only [ok_bind]
  rw [if_pos h2]
  rfl

/-- Claim C10: under a sighash with `(sighash & 0x03) == SIGHASH_SINGLE`
and an index at or beyond the number of outputs, the taproot digest
raises `IndexError` when building the single-output hash — it neither
returns a digest nor substitutes zero bytes (unlike the segwit v0 path).
The hypothesis `hbase` states that execution reaches the single-output
section, i.e. the preimage construction up to that point succeeded. -/
theorem c10_taproot_single_out_of_range (sha : List Nat → List Nat) (t : Transaction)
    (txin_index : Nat) (script_pubkeys : List Script) (amounts : List Int)
    (ext_flag : Nat) (script : Script) (leaf_ver sighash : Nat) (b : List Nat)
    (hsig : sighash &&& 0x03 = SIGHASH_SINGLE)
    (hout : t.outputs.length ≤ txin_index)
    (hbase : taproot_preimage_base sha t txin_index script_pubkeys amounts ext_flag sighash =
      .ok b) :
    get_transaction_taproot_digest sha t txin_index script_pubkeys amounts ext_flag script
      leaf_ver sighash = .error PyErr.indexError := by
  unfold get_transaction_taproot_digest taproot_preimage
  rw [transaction_copy_eq, hbase, ok_bind, if_pos hsig, List.getElem?_eq_none hout]
  rfl

/-- A one-input, zero-output transaction used as the concrete instance
for claim C10. -/
def txC10 : Transaction :=
  { inputs := [⟨List.replicate 32 5, 0, [], [0, 0, 0, 0]⟩]
    outputs := []
    has_segwit := true
    witnesses := [⟨[]⟩]
    locktime := [0, 0, 0, 0]
    version := [2, 0, 0, 0] }

/-- Witness for claim C10 at a concrete transaction with no outputs and
`sighash = SIGHASH_SINGLE`. -/
theorem c10_witness :
    get_transaction_taproot_digest (fun l => l) txC10 0 [[0x51]] [500] 0 [] 0xC0
      SIGHASH_SINGLE = .error PyErr.indexError :=
  c10_taproot_single_out_of_range (fun l => l) txC10 0 [[0x51]] [500] 0 [] 0xC0
    SIGHASH_SINGLE
    ((taproot_preimage_base (fun l => l) txC10 0 [[0x51]] [500] 0 SIGHASH_SINGLE).toOption.getD [])
    (by decide) (by decide) (by decide)

/-- A one-input, one-output transaction used as the concrete instance
for claim C5. -/
def txC5 : Transaction :=
  { inputs := [⟨List.replicate 32 0xBB, 0, [], [0, 0, 0, 0]⟩]
    outputs := [⟨500, [0x52]⟩]
    has_segwit := true
    witnesses := [⟨[]⟩]
    locktime := [0, 0, 0, 0]
    version := [2, 0, 0, 0] }

/-- Claim C5 fails on the code: with an empty `amounts` list against a
one-input transaction (`len(amounts) ≠ len(inputs)`), the taproot digest
does not fail at all — there is no input-count check — and a digest is
returned. -/
theorem c5_counterexample :
    (([] : List Int).length ≠ txC5.inputs.length) ∧
    ∃ d, get_transaction_taproot_digest (fun l => l) txC5 0 [] [] 0 [] 0xC0 1 = .ok d :=
  ⟨by decide, _, rfl⟩

/-- Claim C5 amended: `get_transaction_taproot_digest` performs no check
that `len(prevout_amounts) = len(inputs)`; there is no
`InputCountMismatch` error; under well-formed fields (and the non-ACP
key-path SIGHASH_ALL combination shown) it returns a digest even when
the two lengths differ, silently hashing whatever amounts were given. -/
theorem c5_amended_no_input_count_check (sha : List Nat → List Nat) (t : Transaction)
    (script_pubkeys : List Script) (amounts : List Int) (txin_index sighash : Nat)
    (hmismatch : amounts.length ≠ t.inputs.length)
    (hsig : sighash &&& 0x03 = SIGHASH_ALL)
    (hsh : sighash ≤ 255)
    (hnacp : ¬(sighash &&& 0x80 = SIGHASH_ANYONECANPAY))
    (hins : ∀ txin ∈ t.inputs, txin.txout_index < 2 ^ 32)
    (hamts : ∀ a ∈ amounts, 0 ≤ a ∧ a < 2 ^ 64)
    (hspks : ∀ s ∈ script_pubkeys, s.length ≤ 255)
    (houts : ∀ o ∈ t.outputs, (0 ≤ o.amount ∧ o.amount < 2 ^ 64) ∧
      o.script_pubkey.length ≤ 255)
    (hidx : txin_index < 2 ^ 32) :
    ∃ d, get_transaction_taproot_digest sha t txin_index script_pubkeys amounts 0 []
      LEAF_VERSION_TAPSCRIPT sighash = .ok d := by
  have hb1 : bytes1 sighash = .ok [sighash] := by
    unfold bytes1
    rw [if_pos hsh]
  obtain ⟨r1, hr1⟩ := concatM_ok outpoint_bytes t.inputs
    (fun txin h => ⟨_, outpoint_bytes_ok txin (hins txin h)⟩)
  obtain ⟨r2, hr2⟩ := concatM_ok taproot_amount_bytes amounts
    (fun a ha => ⟨_, taproot_amount_bytes_ok a (hamts a ha)⟩)
  obtain ⟨r3, hr3⟩ := concatM_ok taproot_spk_bytes script_pubkeys
    (fun s hs' => ⟨_, taproot_spk_bytes_ok s (hspks s hs')⟩)
  obtain ⟨r4, hr4⟩ := concatM_ok taproot_output_bytes t.outputs
    (fun o ho => ⟨_, taproot_output_bytes_ok o (houts o ho).1 (houts o ho).2⟩)
  have hidxb : int_to_bytes_le 4 (txin_index : Int) = .ok (natLE 4 (txin_index : Int).toNat) := by
    unfold int_to_bytes_le
    rw [if_pos ⟨Int.ofNat_nonneg _, by exact_mod_cast hidx⟩]
  have hspend : bytes1 (0 * 2 + 0) = .ok [0] := rfl
  have hbase : ∃ b, taproot_preimage_base sha t txin_index script_pubkeys amounts 0 sighash =
      .ok b := by
    simp +decide only [taproot_preimage_base, transaction_copy_eq, hb1, ok_bind, hsig,
      if_pos hnacp, foldlM_concat, foldlM_concat_ok, hr1, hr2, hr3, hr4, Except.map_ok,
      pure_eq_ok, ne_eq,
      ite_true, ite_false, if_neg hnacp, hidxb, hspend]
    exact ⟨_, rfl⟩
  obtain ⟨b, hbase⟩ := hbase
  unfold get_transaction_taproot_digest taproot_preimage
  simp +decide only [transaction_copy_eq, hbase, ok_bind, hsig, ne_eq, ite_true, ite_false,
    pure_eq_ok]
  exact ⟨_, rfl⟩

/-- A one-input transaction used as the concrete instance for the
amended claim C5 (two amounts are supplied for its single input). -/
def txW5 : Transaction :=
  { inputs := [⟨List.replicate 32 6, 3, [], DEFAULT_TX_SEQUENCE⟩]
    outputs := [⟨750, [0x53]⟩]
    has_segwit := true
    witnesses := [⟨[]⟩]
    locktime := [0, 0, 0, 0]
    version := [2, 0, 0, 0] }

/-- Witness for the amended claim C5 at a concrete instance with two
amounts against one input. -/
theorem c5_witness :
    ∃ d, get_transaction_taproot_digest (fun l => l) txW5 0 [[0x51]] [5, 6] 0 []
      LEAF_VERSION_TAPSCRIPT 1 = .ok d :=
  c5_amended_no_input_count_check (fun l => l) txW5 [[0x51]] [5, 6] 0 1
    (by decide) (by decide) (by decide) (by decide) (by decide) (by decide) (by decide)
    (by decide) (by decide)
